import Mathlib

/-!
Verification of `server/status/monitor.go`: the `rangeDataAccumulator`
statistics aggregator and the `NodeStatusMonitor` store registry.

Go mutation under a mutex is modelled by pure state-transforming functions;
the `sync.Mutex`/`sync.RWMutex` fields carry no data and are omitted.
-/

namespace Monitor

/-- Modelled from the spec: `proto.MVCCStats` is not under src/.  The spec
describes it as "a commutative-group-valued accumulator: a metric set
supporting pointwise addition and subtraction"; its examples use scalar
stats values (stats=10, delta=+5, aggregate=15).  We model the metric set
by a single integer component, so pointwise `Add`/`Subtract` become integer
addition and subtraction. -/
structure MVCCStats where
  val : Int
deriving DecidableEq, Repr

/-- `(*MVCCStats).Add`: pointwise addition, as a pure function. -/
def MVCCStats.Add (s o : MVCCStats) : MVCCStats := ⟨s.val + o.val⟩

/-- `(*MVCCStats).Subtract`: pointwise subtraction, as a pure function. -/
def MVCCStats.Subtract (s o : MVCCStats) : MVCCStats := ⟨s.val - o.val⟩

/-- The Go zero value `proto.MVCCStats{}`. -/
def MVCCStats.zero : MVCCStats := ⟨0⟩

/-- `rangeDataAccumulator` from monitor.go.  `seenScan` is a
`map[int64]struct{}`, i.e. a set of RaftIDs; the Go `nil` map (before any
scan and after `endScanRanges`) is `none`, an allocated map is `some s`. -/
structure rangeDataAccumulator where
  stats : MVCCStats
  rangeCount : Int
  isScanning : Bool
  seenScan : Option (Finset Int)
deriving DecidableEq

/-- The Go zero value of `rangeDataAccumulator`, as produced inside
`GetStoreMonitor` by `&StoreStatusMonitor{ID: id}`: zero stats, zero range
count, not scanning, nil seen-set. -/
def rangeDataAccumulator.init : rangeDataAccumulator :=
  { stats := MVCCStats.zero, rangeCount := 0, isScanning := false, seenScan := none }

/-- `rangeDataAccumulator.addRange`.  Only the fields of the
`AddRangeEvent` that the body reads are taken as arguments:
`event.Desc.RaftID` and `event.Stats`.  (A write into a Go nil map would
panic, but `isScanning` is only ever true with an allocated `seenScan`, so
the `getD ∅` default is unreachable in the true branch.) -/
def rangeDataAccumulator.addRange (rda : rangeDataAccumulator)
    (raftID : Int) (stats : MVCCStats) : rangeDataAccumulator :=
  if rda.isScanning then
    { rda with
      seenScan := some (insert raftID (rda.seenScan.getD ∅)),
      rangeCount := rda.rangeCount + 1,
      stats := rda.stats.Add stats }
  else
    rda

/-- `rangeDataAccumulator.updateRange`, over `event.Desc.RaftID` and
`event.Delta`.  A lookup in a Go nil map reports the key absent, hence
`getD ∅`. -/
def rangeDataAccumulator.updateRange (rda : rangeDataAccumulator)
    (raftID : Int) (delta : MVCCStats) : rangeDataAccumulator :=
  if rda.isScanning ∧ raftID ∉ rda.seenScan.getD ∅ then
    rda
  else
    { rda with stats := rda.stats.Add delta }

/-- `rangeDataAccumulator.removeRange`, over `event.Stats`. -/
def rangeDataAccumulator.removeRange (rda : rangeDataAccumulator)
    (stats : MVCCStats) : rangeDataAccumulator :=
  { rda with stats := rda.stats.Subtract stats, rangeCount := rda.rangeCount - 1 }

/-- `rangeDataAccumulator.splitRange`: the body reads no event field. -/
def rangeDataAccumulator.splitRange (rda : rangeDataAccumulator) :
    rangeDataAccumulator :=
  { rda with rangeCount := rda.rangeCount + 1 }

/-- `rangeDataAccumulator.mergeRange`: the body reads no event field. -/
def rangeDataAccumulator.mergeRange (rda : rangeDataAccumulator) :
    rangeDataAccumulator :=
  { rda with rangeCount := rda.rangeCount - 1 }

/-- `rangeDataAccumulator.beginScanRanges`. -/
def rangeDataAccumulator.beginScanRanges (rda : rangeDataAccumulator) :
    rangeDataAccumulator :=
  { rda with
    isScanning := true,
    stats := MVCCStats.zero,
    rangeCount := 0,
    seenScan := some ∅ }

/-- `rangeDataAccumulator.endScanRanges`. -/
def rangeDataAccumulator.endScanRanges (rda : rangeDataAccumulator) :
    rangeDataAccumulator :=
  { rda with isScanning := false, seenScan := none }

/-- The events a single accumulator can receive, each carrying the fields
its handler reads. -/
inductive AccEvent where
  | addRange (raftID : Int) (stats : MVCCStats)
  | updateRange (raftID : Int) (delta : MVCCStats)
  | removeRange (stats : MVCCStats)
  | splitRange
  | mergeRange
  | beginScanRanges
  | endScanRanges
deriving DecidableEq, Repr

/-- Apply one event to an accumulator, following the per-event handlers in
monitor.go. -/
def applyAccEvent (e : AccEvent) (rda : rangeDataAccumulator) :
    rangeDataAccumulator :=
  match e with
  | .addRange raftID stats => rda.addRange raftID stats
  | .updateRange raftID delta => rda.updateRange raftID delta
  | .removeRange stats => rda.removeRange stats
  | .splitRange => rda.splitRange
  | .mergeRange => rda.mergeRange
  | .beginScanRanges => rda.beginScanRanges
  | .endScanRanges => rda.endScanRanges

/-- `StoreStatusMonitor`: a `rangeDataAccumulator` (embedded, unnamed in
Go) plus the store's ID (`proto.StoreID`, modelled as `Int`). -/
structure StoreStatusMonitor where
  rda : rangeDataAccumulator
  ID : Int
deriving DecidableEq

/-- `NodeStatusMonitor`: the store registry.  The Go
`map[proto.StoreID]*StoreStatusMonitor` is modelled as an association list
keyed by StoreID; map insertion appends a binding for an absent key. -/
structure NodeStatusMonitor where
  stores : List (Int × StoreStatusMonitor)
deriving DecidableEq

/-- `NewNodeStatusMonitor`: empty registry. -/
def NewNodeStatusMonitor : NodeStatusMonitor := ⟨[]⟩

/-- `NodeStatusMonitor.GetStoreMonitor`.  The Go double-checked locking
(RLock lookup, then Lock, re-check, create) is, sequentially, exactly
lookup-or-insert: return the existing monitor if present, else register a
fresh `&StoreStatusMonitor{ID: id}` and return it.  Returns the monitor and
the (possibly grown) registry. -/
def NodeStatusMonitor.GetStoreMonitor (nsm : NodeStatusMonitor) (id : Int) :
    StoreStatusMonitor × NodeStatusMonitor :=
  match nsm.stores.lookup id with
  | some s => (s, nsm)
  | none =>
    let s : StoreStatusMonitor := { rda := rangeDataAccumulator.init, ID := id }
    (s, ⟨nsm.stores ++ [(id, s)]⟩)

/-- `NodeStatusMonitor.VisitStoreMonitors`: calls the visitor with every
`StoreStatusMonitor` in the collection.  Modelled as the list of monitors
handed to the visitor, in registry order; the method itself writes nothing
(locks carry no data). -/
def NodeStatusMonitor.VisitStoreMonitors (nsm : NodeStatusMonitor) :
    List StoreStatusMonitor :=
  nsm.stores.map Prod.snd

/-- In Go the `OnXxx` handlers mutate the returned `*StoreStatusMonitor` in
place.  Here: resolve `id` via `GetStoreMonitor`, then rewrite that entry's
accumulator with `f`. -/
def NodeStatusMonitor.updateStore (nsm : NodeStatusMonitor) (id : Int)
    (f : rangeDataAccumulator → rangeDataAccumulator) : NodeStatusMonitor :=
  let nsm' := (nsm.GetStoreMonitor id).2
  ⟨nsm'.stores.map (fun p => if p.1 = id then (p.1, { p.2 with rda := f p.2.rda }) else p)⟩

/-- The store events of monitor.go, each carrying its StoreID and the
fields the accumulator handler reads. -/
inductive StoreEvent where
  | addRange (storeID raftID : Int) (stats : MVCCStats)
  | updateRange (storeID raftID : Int) (delta : MVCCStats)
  | removeRange (storeID : Int) (stats : MVCCStats)
  | splitRange (storeID : Int)
  | mergeRange (storeID : Int)
  | startStore (storeID : Int)
  | beginScanRanges (storeID : Int)
  | endScanRanges (storeID : Int)
deriving DecidableEq, Repr

/-- Event dispatch: the `OnAddRange` .. `OnEndScanRanges` handlers, each of
which resolves the store via `GetStoreMonitor` and forwards to the matching
accumulator operation; `OnStartStore` only materializes the monitor. -/
def dispatch (nsm : NodeStatusMonitor) (e : StoreEvent) : NodeStatusMonitor :=
  match e with
  | .addRange sid rid st => nsm.updateStore sid (fun rda => rda.addRange rid st)
  | .updateRange sid rid d => nsm.updateStore sid (fun rda => rda.updateRange rid d)
  | .removeRange sid st => nsm.updateStore sid (fun rda => rda.removeRange st)
  | .splitRange sid => nsm.updateStore sid (fun rda => rda.splitRange)
  | .mergeRange sid => nsm.updateStore sid (fun rda => rda.mergeRange)
  | .startStore sid => (nsm.GetStoreMonitor sid).2
  | .beginScanRanges sid => nsm.updateStore sid (fun rda => rda.beginScanRanges)
  | .endScanRanges sid => nsm.updateStore sid (fun rda => rda.endScanRanges)

/-- Registered StoreIDs, in registration order. -/
def NodeStatusMonitor.keys (nsm : NodeStatusMonitor) : List Int :=
  nsm.stores.map Prod.fst

/-- A registry state reachable from `NewNodeStatusMonitor` by a sequence of
dispatched store events. -/
def Reachable (nsm : NodeStatusMonitor) : Prop :=
  ∃ es : List StoreEvent, nsm = es.foldl dispatch NewNodeStatusMonitor

/-- Registry invariant: StoreIDs are registered at most once, and every
registered monitor carries the StoreID it is registered under. -/
def Inv (nsm : NodeStatusMonitor) : Prop :=
  nsm.keys.Nodup ∧ ∀ p ∈ nsm.stores, p.2.ID = p.1

theorem lookup_eq_none_iff (l : List (Int × StoreStatusMonitor)) (id : Int) :
    l.lookup id = none ↔ id ∉ l.map Prod.fst := by
  induction l with
  | nil => simp
  | cons p tl ih =>
    obtain ⟨k, v⟩ := p
    by_cases h : id = k
    · subst h
      simp [List.lookup]
    · have hb : (id == k) = false := beq_eq_false_iff_ne.mpr h
      simp only [List.lookup, hb, List.map_cons, List.mem_cons]
      rw [ih]
      simp [h]

theorem lookup_append_single (l : List (Int × StoreStatusMonitor)) (id : Int)
    (s : StoreStatusMonitor) (h : l.lookup id = none) :
    (l ++ [(id, s)]).lookup id = some s := by
  induction l with
  | nil => simp [List.lookup]
  | cons p tl ih =>
    obtain ⟨k, v⟩ := p
    by_cases hk : id = k
    · subst hk
      simp [List.lookup] at h
    · have hb : (id == k) = false := beq_eq_false_iff_ne.mpr hk
      simp only [List.cons_append, List.lookup, hb] at h ⊢
      exact ih h

theorem keys_getStoreMonitor (nsm : NodeStatusMonitor) (id : Int) :
    ((nsm.GetStoreMonitor id).2).keys
      = if id ∈ nsm.keys then nsm.keys else nsm.keys ++ [id] := by
  cases h : nsm.stores.lookup id with
  | some s =>
    have hm : id ∈ nsm.keys := by
      by_contra hc
      have h0 := (lookup_eq_none_iff nsm.stores id).mpr hc
      rw [h0] at h
      cases h
    rw [if_pos hm]
    simp [NodeStatusMonitor.GetStoreMonitor, h]
  | none =>
    have hm : id ∉ nsm.keys := (lookup_eq_none_iff nsm.stores id).mp h
    rw [if_neg hm]
    simp [NodeStatusMonitor.GetStoreMonitor, h, NodeStatusMonitor.keys]

theorem lookup_getStoreMonitor (nsm : NodeStatusMonitor) (id : Int) :
    ((nsm.GetStoreMonitor id).2).stores.lookup id
      = some (nsm.GetStoreMonitor id).1 := by
  cases h : nsm.stores.lookup id with
  | some s => simp [NodeStatusMonitor.GetStoreMonitor, h]
  | none => simp [NodeStatusMonitor.GetStoreMonitor, h, lookup_append_single _ _ _ h]

theorem keys_updateStore (nsm : NodeStatusMonitor) (id : Int)
    (f : rangeDataAccumulator → rangeDataAccumulator) :
    (nsm.updateStore id f).keys = ((nsm.GetStoreMonitor id).2).keys := by
  show (((nsm.GetStoreMonitor id).2).stores.map _).map Prod.fst
        = ((nsm.GetStoreMonitor id).2).stores.map Prod.fst
  rw [List.map_map]
  refine List.map_congr_left fun p _ => ?_
  by_cases h : p.1 = id <;> simp [h]

theorem inv_getStoreMonitor (nsm : NodeStatusMonitor) (id : Int)
    (h : Inv nsm) : Inv ((nsm.GetStoreMonitor id).2) := by
  cases hl : nsm.stores.lookup id with
  | some s =>
    simpa [NodeStatusMonitor.GetStoreMonitor, hl] using h
  | none =>
    have hm : id ∉ nsm.keys := (lookup_eq_none_iff nsm.stores id).mp hl
    constructor
    · rw [keys_getStoreMonitor, if_neg hm]
      simpa [List.nodup_append] using ⟨h.1, hm⟩
    · intro p hp
      simp only [NodeStatusMonitor.GetStoreMonitor, hl, List.mem_append,
        List.mem_singleton] at hp
      rcases hp with hp | hp
      · exact h.2 p hp
      · subst hp; rfl

theorem inv_updateStore (nsm : NodeStatusMonitor) (id : Int)
    (f : rangeDataAccumulator → rangeDataAccumulator) (h : Inv nsm) :
    Inv (nsm.updateStore id f) := by
  have h2 := inv_getStoreMonitor nsm id h
  constructor
  · rw [keys_updateStore]
    exact h2.1
  · intro p hp
    simp only [NodeStatusMonitor.updateStore, List.mem_map] at hp
    obtain ⟨q, hq, rfl⟩ := hp
    by_cases h1 : q.1 = id <;> simp [h1, h2.2 q hq]

theorem inv_dispatch (nsm : NodeStatusMonitor) (e : StoreEvent)
    (h : Inv nsm) : Inv (dispatch nsm e) := by
  cases e <;>
    first
      | exact inv_updateStore _ _ _ h
      | exact inv_getStoreMonitor _ _ h

theorem inv_foldl (es : List StoreEvent) (nsm : NodeStatusMonitor)
    (h : Inv nsm) : Inv (es.foldl dispatch nsm) := by
  induction es generalizing nsm with
  | nil => exact h
  | cons e tl ih => exact ih _ (inv_dispatch _ _ h)

theorem inv_reachable (nsm : NodeStatusMonitor) (h : Reachable nsm) :
    Inv nsm := by
  obtain ⟨es, rfl⟩ := h
  refine inv_foldl es NewNodeStatusMonitor
    ⟨by simp [NewNodeStatusMonitor, NodeStatusMonitor.keys],
     by simp [NewNodeStatusMonitor]⟩

theorem mem_keys_dispatch (nsm : NodeStatusMonitor) (e : StoreEvent)
    (id : Int) (h : id ∈ nsm.keys) : id ∈ (dispatch nsm e).keys := by
  have base : ∀ sid, id ∈ ((nsm.GetStoreMonitor sid).2).keys := by
    intro sid
    rw [keys_getStoreMonitor]
    split
    · exact h
    · exact List.mem_append_left _ h
  cases e <;> simp only [dispatch, keys_updateStore] <;> exact base _

/-- C1: `updateRange` discards the delta exactly when a scan is in progress
and the range is not yet in the seen-set; otherwise it adds the delta into
the aggregate and changes nothing else.  The spec's sequence BeginScan;
UpdateRange(1,+5); AddRange(1,10); UpdateRange(1,+5); EndScan yields
aggregate 15 and range count 1. -/
theorem updateRange_gating :
    (∀ (rda : rangeDataAccumulator) (raftID : Int) (delta : MVCCStats),
      (rda.isScanning = true → raftID ∉ rda.seenScan.getD ∅ →
        rda.updateRange raftID delta = rda)
      ∧ (rda.isScanning = false ∨ raftID ∈ rda.seenScan.getD ∅ →
          (rda.updateRange raftID delta).stats = rda.stats.Add delta
          ∧ (rda.updateRange raftID delta).rangeCount = rda.rangeCount
          ∧ (rda.updateRange raftID delta).seenScan = rda.seenScan
          ∧ (rda.updateRange raftID delta).isScanning = rda.isScanning))
    ∧ (let s5 := (((rangeDataAccumulator.init.beginScanRanges.updateRange 1
          ⟨5⟩).addRange 1 ⟨10⟩).updateRange 1 ⟨5⟩).endScanRanges
       s5.stats = ⟨15⟩ ∧ s5.rangeCount = 1) := by
  refine ⟨fun rda raftID delta => ⟨fun hs hn => ?_, fun h => ?_⟩, by decide⟩
  · simp [rangeDataAccumulator.updateRange, hs, hn]
  · have hc : ¬(rda.isScanning = true ∧ raftID ∉ rda.seenScan.getD ∅) := by
      rcases h with h | h
      · simp [h]
      · simp [h]
    simp only [rangeDataAccumulator.updateRange]
    rw [if_neg hc]
    exact ⟨rfl, rfl, rfl, rfl⟩

/-- Witness for C1 at a concrete non-scanning state. -/
theorem updateRange_gating_witness :
    (rangeDataAccumulator.init.updateRange 1 ⟨5⟩).stats
      = rangeDataAccumulator.init.stats.Add ⟨5⟩
    ∧ ((rangeDataAccumulator.init.beginScanRanges).updateRange 1 ⟨5⟩)
      = rangeDataAccumulator.init.beginScanRanges :=
  ⟨((updateRange_gating.1 rangeDataAccumulator.init 1 ⟨5⟩).2 (Or.inl rfl)).1,
   (updateRange_gating.1 rangeDataAccumulator.init.beginScanRanges 1 ⟨5⟩).1
     rfl (by decide)⟩

/-- C2: `addRange` is a no-op when the accumulator is not scanning; while
scanning it records the range in the seen-set, increments the range count
and adds the stats into the aggregate. -/
theorem addRange_scan_only :
    ∀ (rda : rangeDataAccumulator) (raftID : Int) (stats : MVCCStats),
      (rda.isScanning = false → rda.addRange raftID stats = rda)
      ∧ (rda.isScanning = true →
          (rda.addRange raftID stats).stats = rda.stats.Add stats
          ∧ (rda.addRange raftID stats).rangeCount = rda.rangeCount + 1
          ∧ (rda.addRange raftID stats).seenScan
              = some (insert raftID (rda.seenScan.getD ∅))
          ∧ (rda.addRange raftID stats).isScanning = true) := by
  intro rda raftID stats
  constructor
  · intro h
    simp [rangeDataAccumulator.addRange, h]
  · intro h
    simp [rangeDataAccumulator.addRange, h]

/-- Witness for C2 at a concrete idle state and a concrete scanning state. -/
theorem addRange_scan_only_witness :
    rangeDataAccumulator.init.addRange 1 ⟨10⟩ = rangeDataAccumulator.init
    ∧ (rangeDataAccumulator.init.beginScanRanges.addRange 1 ⟨10⟩).rangeCount
        = rangeDataAccumulator.init.beginScanRanges.rangeCount + 1 :=
  ⟨(addRange_scan_only rangeDataAccumulator.init 1 ⟨10⟩).1 rfl,
   ((addRange_scan_only rangeDataAccumulator.init.beginScanRanges 1 ⟨10⟩).2 rfl).2.1⟩

/-- C3: `beginScanRanges` enters scanning mode, zeroes the aggregate and
the range count and installs a fresh empty seen-set; `endScanRanges`
leaves scanning mode and releases the seen-set, touching nothing else; a
freshly created accumulator is idle; and over every accumulator operation,
only `beginScanRanges` sets `isScanning` and only `endScanRanges` clears
it, so `isScanning` is true exactly between a begin and its matching end
for every event sequence from the idle initial state. -/
theorem scan_mode_protocol :
    (∀ rda : rangeDataAccumulator,
       rda.beginScanRanges =
         { stats := MVCCStats.zero, rangeCount := 0,
           isScanning := true, seenScan := some ∅ })
    ∧ (∀ rda : rangeDataAccumulator,
       rda.endScanRanges =
         { stats := rda.stats, rangeCount := rda.rangeCount,
           isScanning := false, seenScan := none })
    ∧ rangeDataAccumulator.init.isScanning = false
    ∧ (∀ (e : AccEvent) (rda : rangeDataAccumulator),
       (applyAccEvent e rda).isScanning =
         match e with
         | .beginScanRanges => true
         | .endScanRanges => false
         | _ => rda.isScanning) := by
  refine ⟨fun rda => rfl, fun rda => rfl, rfl, fun e rda => ?_⟩
  cases e <;>
    simp only [applyAccEvent, rangeDataAccumulator.addRange,
      rangeDataAccumulator.updateRange, rangeDataAccumulator.removeRange,
      rangeDataAccumulator.splitRange, rangeDataAccumulator.mergeRange,
      rangeDataAccumulator.beginScanRanges, rangeDataAccumulator.endScanRanges] <;>
    first
      | rfl
      | (split <;> rfl)

/-- C4: from a fresh accumulator, BeginScan; AddRange(1, 10); EndScan;
RemoveRange(10) yields aggregate 0 and range count 0. -/
theorem scan_then_remove_zeroes :
    (let s := (((rangeDataAccumulator.init.beginScanRanges).addRange 1
        ⟨10⟩).endScanRanges).removeRange ⟨10⟩
     s.stats = ⟨0⟩ ∧ s.rangeCount = 0) := by
  decide

/-- C5: `removeRange` unconditionally subtracts the stats and decrements
the range count, in every state, and never touches the seen-set or the
scanning flag. -/
theorem removeRange_unconditional :
    ∀ (rda : rangeDataAccumulator) (stats : MVCCStats),
      (rda.removeRange stats).stats = rda.stats.Subtract stats
      ∧ (rda.removeRange stats).rangeCount = rda.rangeCount - 1
      ∧ (rda.removeRange stats).seenScan = rda.seenScan
      ∧ (rda.removeRange stats).isScanning = rda.isScanning :=
  fun _ _ => ⟨rfl, rfl, rfl, rfl⟩

/-- C6: `splitRange` increments and `mergeRange` decrements the range
count only, leaving the aggregate stats, the seen-set and the scanning
flag unchanged in every state; the spec's concrete split/merge example
holds. -/
theorem split_merge_count_only :
    (∀ rda : rangeDataAccumulator,
       rda.splitRange.rangeCount = rda.rangeCount + 1
       ∧ rda.splitRange.stats = rda.stats
       ∧ rda.splitRange.seenScan = rda.seenScan
       ∧ rda.splitRange.isScanning = rda.isScanning)
    ∧ (∀ rda : rangeDataAccumulator,
       rda.mergeRange.rangeCount = rda.rangeCount - 1
       ∧ rda.mergeRange.stats = rda.stats
       ∧ rda.mergeRange.seenScan = rda.seenScan
       ∧ rda.mergeRange.isScanning = rda.isScanning)
    ∧ (let s : rangeDataAccumulator :=
         { stats := ⟨100⟩, rangeCount := 1, isScanning := false, seenScan := none }
       s.splitRange.stats = ⟨100⟩ ∧ s.splitRange.rangeCount = 2
       ∧ s.splitRange.mergeRange.rangeCount = 1
       ∧ s.splitRange.mergeRange.stats = ⟨100⟩) :=
  ⟨fun _ => ⟨rfl, rfl, rfl, rfl⟩, fun _ => ⟨rfl, rfl, rfl, rfl⟩, by decide⟩

/-- C9: during a scan, `addRange` is not deduplicated by the seen-set: a
second `addRange` for an already-seen range increments the range count and
adds its stats again, while the seen-set itself is unchanged (its
insertion is idempotent). -/
theorem addRange_not_deduplicated :
    ∀ (rda : rangeDataAccumulator) (raftID : Int) (stats : MVCCStats),
      rda.isScanning = true → raftID ∈ rda.seenScan.getD ∅ →
        (rda.addRange raftID stats).rangeCount = rda.rangeCount + 1
        ∧ (rda.addRange raftID stats).stats = rda.stats.Add stats
        ∧ (rda.addRange raftID stats).seenScan = rda.seenScan := by
  intro rda raftID stats hs hm
  cases hss : rda.seenScan with
  | none => rw [hss] at hm; simp at hm
  | some s =>
    rw [hss] at hm
    simp only [Option.getD_some] at hm
    simp [rangeDataAccumulator.addRange, hs, hss, Finset.insert_eq_self.mpr hm]

/-- Witness for C9: a second AddRange for range 1 during the same scan
doubles the count and the stats. -/
theorem addRange_not_deduplicated_witness :
    ((rangeDataAccumulator.init.beginScanRanges.addRange 1 ⟨10⟩).addRange 1
        ⟨10⟩).rangeCount
      = (rangeDataAccumulator.init.beginScanRanges.addRange 1 ⟨10⟩).rangeCount + 1
    ∧ ((rangeDataAccumulator.init.beginScanRanges.addRange 1 ⟨10⟩).addRange 1
        ⟨10⟩).stats
      = (rangeDataAccumulator.init.beginScanRanges.addRange 1 ⟨10⟩).stats.Add ⟨10⟩
    ∧ ((rangeDataAccumulator.init.beginScanRanges.addRange 1 ⟨10⟩).addRange 1
        ⟨10⟩).seenScan
      = (rangeDataAccumulator.init.beginScanRanges.addRange 1 ⟨10⟩).seenScan :=
  addRange_not_deduplicated
    (rangeDataAccumulator.init.beginScanRanges.addRange 1 ⟨10⟩) 1 ⟨10⟩
    (by decide) (by decide)

/-- C10: nothing guards against a negative range count: `mergeRange` and
`removeRange` decrement unconditionally, and a single `mergeRange` on a
fresh accumulator drives the count to -1. -/
theorem rangeCount_unguarded_negative :
    rangeDataAccumulator.init.mergeRange.rangeCount = -1
    ∧ (∀ rda : rangeDataAccumulator,
        rda.mergeRange.rangeCount = rda.rangeCount - 1)
    ∧ (∀ (rda : rangeDataAccumulator) (stats : MVCCStats),
        (rda.removeRange stats).rangeCount = rda.rangeCount - 1) :=
  ⟨by decide, fun _ => rfl, fun _ _ => rfl⟩

/-- C7: `GetStoreMonitor` returns the registered monitor unchanged when
one exists; otherwise it registers exactly one new idle monitor (zero
stats, zero count, not scanning) and returns it; a repeated call with the
same StoreID returns the identical entry with the registry unchanged; on
every reachable registry each StoreID is registered at most once; and no
dispatched event ever removes a registered StoreID. -/
theorem getStoreMonitor_registry :
    (∀ (nsm : NodeStatusMonitor) (id : Int) (s : StoreStatusMonitor),
       nsm.stores.lookup id = some s → nsm.GetStoreMonitor id = (s, nsm))
    ∧ (∀ (nsm : NodeStatusMonitor) (id : Int),
       nsm.stores.lookup id = none →
         (nsm.GetStoreMonitor id).1
             = { rda := rangeDataAccumulator.init, ID := id }
         ∧ (nsm.GetStoreMonitor id).2.stores
             = nsm.stores ++ [(id, { rda := rangeDataAccumulator.init, ID := id })])
    ∧ (∀ (nsm : NodeStatusMonitor) (id : Int),
       ((nsm.GetStoreMonitor id).2.GetStoreMonitor id)
         = ((nsm.GetStoreMonitor id).1, (nsm.GetStoreMonitor id).2))
    ∧ (∀ nsm : NodeStatusMonitor, Reachable nsm → nsm.keys.Nodup)
    ∧ (∀ (nsm : NodeStatusMonitor) (e : StoreEvent) (id : Int),
       id ∈ nsm.keys → id ∈ (dispatch nsm e).keys) := by
  refine ⟨?_, ?_, ?_, ?_, mem_keys_dispatch⟩
  · intro nsm id s h
    simp [NodeStatusMonitor.GetStoreMonitor, h]
  · intro nsm id h
    exact ⟨by simp [NodeStatusMonitor.GetStoreMonitor, h],
           by simp [NodeStatusMonitor.GetStoreMonitor, h]⟩
  · intro nsm id
    have hl := lookup_getStoreMonitor nsm id
    generalize hg : nsm.GetStoreMonitor id = g at hl ⊢
    simp [NodeStatusMonitor.GetStoreMonitor, hl]
  · intro nsm h
    exact (inv_reachable nsm h).1

/-- Witness for C7: registering store 7 in an empty registry, looking it
up again, checking key uniqueness of the reachable one-store registry, and
that a dispatched event does not remove the key. -/
theorem getStoreMonitor_registry_witness :
    (let s7 : StoreStatusMonitor := { rda := rangeDataAccumulator.init, ID := 7 }
     let nsm1 : NodeStatusMonitor := ⟨[(7, s7)]⟩
     nsm1.GetStoreMonitor 7 = (s7, nsm1)
     ∧ (NewNodeStatusMonitor.GetStoreMonitor 7).1 = s7
     ∧ (NewNodeStatusMonitor.GetStoreMonitor 7).2.stores = [(7, s7)]
     ∧ nsm1.keys.Nodup
     ∧ (7 : Int) ∈ (dispatch nsm1 (.mergeRange 3)).keys) := by
  refine ⟨getStoreMonitor_registry.1 _ 7 _ (by decide),
          (getStoreMonitor_registry.2.1 NewNodeStatusMonitor 7 rfl).1,
          (getStoreMonitor_registry.2.1 NewNodeStatusMonitor 7 rfl).2,
          getStoreMonitor_registry.2.2.2.1 _ ⟨[.startStore 7], by decide⟩,
          getStoreMonitor_registry.2.2.2.2 _ (.mergeRange 3) 7 (by decide)⟩

/-- C8: `VisitStoreMonitors` hands the visitor exactly the registered
monitors: on every reachable registry the visited monitors' StoreIDs are
exactly the registered keys, so each registered store is visited exactly
once and an unregistered store never; the call itself writes nothing. -/
theorem visitStoreMonitors_exactly_once :
    ∀ nsm : NodeStatusMonitor, Reachable nsm →
      nsm.VisitStoreMonitors.map StoreStatusMonitor.ID = nsm.keys
      ∧ ∀ id : Int,
          (nsm.VisitStoreMonitors.map StoreStatusMonitor.ID).count id
            = if id ∈ nsm.keys then 1 else 0 := by
  intro nsm h
  have hinv := inv_reachable nsm h
  have hmap : nsm.VisitStoreMonitors.map StoreStatusMonitor.ID = nsm.keys := by
    show (nsm.stores.map Prod.snd).map StoreStatusMonitor.ID = nsm.stores.map Prod.fst
    rw [List.map_map]
    exact List.map_congr_left fun p hp => hinv.2 p hp
  refine ⟨hmap, fun id => ?_⟩
  rw [hmap]
  by_cases hm : id ∈ nsm.keys
  · rw [if_pos hm]
    exact List.count_eq_one_of_mem hinv.1 hm
  · rw [if_neg hm]
    exact List.count_eq_zero.mpr hm

/-- Witness for C8: after registering stores 1, 2 and 3, the visitor sees
exactly stores 1, 2, 3, each once. -/
theorem visitStoreMonitors_exactly_once_witness :
    (let nsm := [StoreEvent.startStore 1, .startStore 2,
        .startStore 3].foldl dispatch NewNodeStatusMonitor
     nsm.VisitStoreMonitors.map StoreStatusMonitor.ID = [1, 2, 3]
     ∧ (nsm.VisitStoreMonitors.map StoreStatusMonitor.ID).count 2 = 1
     ∧ (nsm.VisitStoreMonitors.map StoreStatusMonitor.ID).count 4 = 0) := by
  have h := visitStoreMonitors_exactly_once
    ([StoreEvent.startStore 1, .startStore 2, .startStore 3].foldl dispatch
      NewNodeStatusMonitor)
    ⟨[.startStore 1, .startStore 2, .startStore 3], rfl⟩
  refine ⟨by rw [h.1]; decide, by rw [h.2 2]; decide, by rw [h.2 4]; decide⟩

end Monitor
